import Mathlib

/-!
Verification of the Stock Split Discord Bot batch-classification subsystem.

Shallow embedding of the Python sources:
- ai_handler.py  : get_batch_ai_validation (batch response parse, error map)
- run_split_checker.py : AI-result merge loop and Discord notification loop
- history_manager.py : load_notified_history / save_notified_history
- data_utils.py  : is_reverse_split

Strings are modelled as lists of characters. Python dicts keyed by ticker are
modelled as insertion-ordered association lists with in-place update, which is
exactly the Python 3.7+ dict semantics used by the code.
-/

/-- Python strings, modelled as character lists so that every operation is a
structurally recursive, kernel-evaluable function. -/
abbrev Str := List Char

/-- Coerce a Lean string literal into the character-list model. -/
def str (s : String) : Str := s.toList

/-- The six ASCII whitespace characters recognised by Python str.strip.
(Non-ASCII Unicode whitespace does not occur in this program's data.) -/
def isPySpace (c : Char) : Bool :=
  c == ' ' || c == '\t' || c == '\n' || c == '\r' || c == '\x0b' || c == '\x0c'

/-- Python str.strip: drop leading and trailing whitespace. -/
def pyStrip (s : Str) : Str :=
  ((s.dropWhile isPySpace).reverse.dropWhile isPySpace).reverse

/-- Python str.lower (ASCII range, which covers the program's data). -/
def lowerStr (s : Str) : Str := s.map Char.toLower

/-- Python str.split(sep) for a single-character separator: split on every
occurrence, keeping empty chunks. -/
def splitCh (sep : Char) : Str → List Str
  | [] => [[]]
  | c :: cs =>
    if c = sep then [] :: splitCh sep cs
    else
      match splitCh sep cs with
      | [] => [[c]]
      | l :: ls => (c :: l) :: ls

/-- Python str.split(sep, 1) for a single-character separator: split at the
first occurrence only; none when the separator is absent. -/
def splitOnceCh (sep : Char) : Str → Option (Str × Str)
  | [] => none
  | c :: cs =>
    if c = sep then some ([], cs)
    else (splitOnceCh sep cs).map (fun p => (c :: p.1, p.2))

/-- Python str.splitlines restricted to the newline character, which is the
only line boundary occurring in the modelled data: a trailing newline does not
produce a final empty line, and the empty string has no lines. -/
def splitlines (s : Str) : List Str :=
  if s = [] then []
  else
    let ps := splitCh '\n' s
    if ps.getLast? = some [] then ps.dropLast else ps

/-- Split at the first occurrence of a multi-character pattern, returning the
text before it and the text after it; none when the pattern does not occur. -/
def splitSubOnce (pat : Str) : Str → Option (Str × Str)
  | [] => if pat.isPrefixOf [] then some ([], []) else none
  | c :: cs =>
    if pat.isPrefixOf (c :: cs) then some ([], (c :: cs).drop pat.length)
    else (splitSubOnce pat cs).map (fun p => (c :: p.1, p.2))

/-- Python substring containment (the `in` operator on strings). -/
def containsSub (pat s : Str) : Bool := (splitSubOnce pat s).isSome

/-- Fuel-driven worker for `splitSub`; the fuel is an upper bound on the
number of split points, so `length + 1` fuel always suffices for a non-empty
pattern. -/
def splitSubFuel (pat : Str) : Nat → Str → List Str
  | 0, s => [s]
  | fuel + 1, s =>
    match splitSubOnce pat s with
    | none => [s]
    | some p => p.1 :: splitSubFuel pat fuel p.2

/-- Python str.split(sep) for a multi-character separator: split on every
non-overlapping occurrence, left to right. -/
def splitSub (pat s : Str) : List Str := splitSubFuel pat (s.length + 1) s

/-! ## ai_handler.py constants (from config.py) -/

def OUTPUT_ROUND_UP : Str := str ("Rounding Up Likely")

def OUTPUT_CASH : Str := str ("Cash-in-Lieu Likely")

def OUTPUT_UNKNOWN : Str := str ("Unable to Determine")

def CLASSIFICATION_PHRASES : List Str := [OUTPUT_ROUND_UP, OUTPUT_CASH, OUTPUT_UNKNOWN]

def RESP_MISSING : Str := str ("AI Response Missing")

def RESP_UNCLEAR : Str := str ("AI Response Unclear")

def RESP_API_ERROR : Str := str ("AI API Error")

def REASONING_PLACEHOLDER : Str := str ("(Reasoning not distinctly separated or provided)")

def FALLBACK_REASONING : Str := str ("(Fallback Parse - Reasoning unclear)")

def SEP_PIPE_REASONING : Str := str ("| Reasoning:")

def SEP_REASONING : Str := str ("Reasoning:")

/-- One parsed classification: the dict literal
`(result ..., reasoning ...)` built for each ticker by ai_handler.py. -/
structure AIResult where
  result : Str
  reasoning : Str
deriving DecidableEq

/-- The ai_results_map Python dict: insertion-ordered association list. -/
abbrev AIMap := List (Str × AIResult)

/-- Python dict assignment `m[k] = v`: update in place when the key exists,
append otherwise. -/
def dictSet (m : AIMap) (k : Str) (v : AIResult) : AIMap :=
  match m with
  | [] => [(k, v)]
  | (k2, v2) :: rest => if k2 = k then (k, v) :: rest else (k2, v2) :: dictSet rest k v

/-- Python dict lookup `m.get(k)`. -/
def dictGet (m : AIMap) (k : Str) : Option AIResult :=
  match m with
  | [] => none
  | (k2, v2) :: rest => if k2 = k then some v2 else dictGet rest k

/-- Build a dict mapping every listed ticker to the same value: models both
the missing-sentinel initialisation loop and the api-error dict comprehension
in get_batch_ai_validation. -/
def dictInit (ts : List Str) (v : AIResult) : AIMap :=
  ts.foldl (fun m t => dictSet m t v) []

/-- The reasoning-separator stripping chain of ai_handler.py lines 137-143:
the first matching leading separator is removed (in the priority order
literal pipe-Reasoning, bare pipe, bare Reasoning, dash), otherwise non-empty
text is kept, otherwise the placeholder is used. -/
def stripReasoningSep (t : Str) : Str :=
  if SEP_PIPE_REASONING.isPrefixOf t then pyStrip (t.drop SEP_PIPE_REASONING.length)
  else if (str ("|")).isPrefixOf t then pyStrip (t.drop 1)
  else if SEP_REASONING.isPrefixOf t then pyStrip (t.drop SEP_REASONING.length)
  else if (str ("-")).isPrefixOf t then pyStrip (t.drop 1)
  else if t ≠ [] then t
  else REASONING_PLACEHOLDER

/-- Classify the remainder of a response line after the ticker colon
(ai_handler.py lines 132-153): first phrase that is a prefix wins and its
tail becomes the reasoning; otherwise the first phrase contained anywhere
wins with the text after it as reasoning; otherwise the unclear sentinel with
the whole remainder as reasoning. -/
def classifyRest (rest : Str) : AIResult :=
  match CLASSIFICATION_PHRASES.find? (fun p => p.isPrefixOf rest) with
  | some p => ⟨p, stripReasoningSep (pyStrip (rest.drop p.length))⟩
  | none =>
    match CLASSIFICATION_PHRASES.find? (fun p => containsSub p rest) with
    | some p =>
      match splitSubOnce p rest with
      | some q => ⟨p, pyStrip q.2⟩
      | none => ⟨p, FALLBACK_REASONING⟩
    | none => ⟨RESP_UNCLEAR, rest⟩

/-- Per-line admission check of ai_handler.py lines 124-130: strip the line,
skip blank lines and lines without a colon, split at the first colon, strip
both sides, and admit the line only when the ticker token is one of the
requested tickers.  Returns the admitted ticker and the stripped remainder. -/
def lineTicker (ts : List Str) (line : Str) : Option (Str × Str) :=
  if pyStrip line = [] then none
  else
    match splitOnceCh ':' (pyStrip line) with
    | none => none
    | some p =>
      if pyStrip p.1 ∈ ts then some (pyStrip p.1, pyStrip p.2) else none

/-- Process one response line against the accumulating result dict
(ai_handler.py line 155 assignment). -/
def lineStep (ts : List Str) (m : AIMap) (line : Str) : AIMap :=
  match lineTicker ts line with
  | none => m
  | some p => dictSet m p.1 (classifyRest p.2)

/-- The batch response parse of ai_handler.py lines 120-155: initialise every
requested ticker to the missing sentinel, then fold over the response lines. -/
def parseBatchResponse (responseText : Str) (ts : List Str) : AIMap :=
  (splitlines responseText).foldl (lineStep ts) (dictInit ts ⟨RESP_MISSING, []⟩)

/-- One element of reverse_split_list handed to get_batch_ai_validation. -/
structure SplitInfo where
  ticker : Str
  ratioTxt : Str
  ex_date : Str
deriving DecidableEq

/-- The tickers_sent manifest built while assembling the prompt body. -/
def tickersSent (l : List SplitInfo) : List Str := l.map SplitInfo.ticker

/-- get_batch_ai_validation (ai_handler.py lines 49-158).  The network call is
modelled by its observable outcome: `none` when model.generate_content raised
and `some text` when it returned text.  The second component records whether a
network call was attempted, which the unconfigured and empty-list
short-circuits skip. -/
def get_batch_ai_validation (configured : Bool) (l : List SplitInfo)
    (callResult : Option Str) : AIMap × Bool :=
  if configured = false then ([], false)
  else if l = [] then ([], false)
  else
    match callResult with
    | none => (dictInit (tickersSent l) ⟨RESP_API_ERROR, []⟩, true)
    | some text => (parseBatchResponse text (tickersSent l), true)

/-! ## run_split_checker.py: merge loop and notification loop -/

/-- The fractional_share_handling cell of a record.  In run_split_checker.py
line 120 the merge loop stores the whole per-ticker AI dict into the cell, so
the cell holds either a plain string or such a dict. -/
inductive Handling where
  | plain (v : Str)
  | aiRes (v : AIResult)
deriving DecidableEq

/-- One record of initial_records / final_analyzed_data. -/
structure SplitRec where
  Ticker : Str
  CompanyName : Str
  RatioTxt : Str
  ExDate : Str
  Exchange : Str
  handling : Handling
deriving DecidableEq

def PENDING_AI : Handling := Handling.plain (str ("Pending AI Analysis"))

def AI_DISABLED : Str := str ("AI Disabled")

def AI_FAILED_MISSING : Str := str ("AI Analysis Failed/Missing")

/-- The merge body of run_split_checker.py lines 115-125 for one record: a
pending record receives the AI dict entry for its ticker when AI is enabled
(the failed/missing default when absent), or the disabled sentinel when AI is
disabled; a non-pending record passes through unchanged. -/
def mergeRecord (ai_enabled : Bool) (m : AIMap) (r : SplitRec) : SplitRec :=
  if r.handling = PENDING_AI then
    if ai_enabled then
      match dictGet m r.Ticker with
      | some v => { r with handling := Handling.aiRes v }
      | none => { r with handling := Handling.plain AI_FAILED_MISSING }
    else { r with handling := Handling.plain AI_DISABLED }
  else r

/-- The whole merge loop over initial_records. -/
def mergeRecords (ai_enabled : Bool) (m : AIMap) (rs : List SplitRec) : List SplitRec :=
  rs.map (mergeRecord ai_enabled m)

/-- The notification key of run_split_checker.py line 158. -/
def notifKey (r : SplitRec) : Str := r.Ticker ++ '_' :: r.ExDate

/-- The Discord notification loop of run_split_checker.py lines 156-174.
`history` is notified_keys_history as loaded at the start of the run; the
loop tests each record key against that unchanged set.  `sendOk` gives the
outcome of the single send_discord_notification attempt for a record.
Returns the records for which a send was attempted, in order, and the keys
added to current_run_notified_keys (those whose attempt succeeded). -/
def notifLoop (history : List Str) (sendOk : SplitRec → Bool) :
    List SplitRec → List SplitRec × List Str
  | [] => ([], [])
  | r :: rs =>
    if notifKey r ∈ history then notifLoop history sendOk rs
    else (r :: (notifLoop history sendOk rs).1,
          if sendOk r then notifKey r :: (notifLoop history sendOk rs).2
          else (notifLoop history sendOk rs).2)

/-- The history set persisted at the end of the run: the loaded history plus
the keys of successful sends (current_run_notified_keys). -/
def finalNotifiedKeys (history : List Str) (sendOk : SplitRec → Bool)
    (records : List SplitRec) : List Str :=
  history ++ (notifLoop history sendOk records).2

/-! ## history_manager.py -/

/-- Lexicographic character-list order used to model Python sorted(...) on
the history keys. -/
def strLe : Str → Str → Bool
  | [], _ => true
  | _ :: _, [] => false
  | a :: as, b :: bs => if a = b then strLe as bs else decide (a < b)

/-- Insert into a sorted list (insertion sort step). -/
def insKey (x : Str) : List Str → List Str
  | [] => [x]
  | y :: ys => if strLe x y then x :: y :: ys else y :: insKey x ys

/-- Model of Python sorted(list(notified_set)). -/
def sortKeys : List Str → List Str
  | [] => []
  | x :: xs => insKey x (sortKeys xs)

/-- save_notified_history (history_manager.py lines 23-35): write the keys in
sorted order, one per line, each followed by a newline.  The produced file
content is returned. -/
def save_notified_history (keys : List Str) : Str :=
  ((sortKeys keys).map (fun k => k ++ ['\n'])).flatten

/-- load_notified_history (history_manager.py lines 7-21): iterate the lines
of the file, strip each, and keep the non-blank results.  (Python file line
iteration keeps the trailing newline on each line; stripping removes it, so
splitting on newlines and stripping is the same computation.) -/
def load_notified_history (file : Str) : List Str :=
  ((splitCh '\n' file).map pyStrip).filter (fun l => l ≠ [])

/-! ## data_utils.py: is_reverse_split -/

/-- A Python value passed as ratio_str: either a string or a non-string
(the isinstance check rejects the latter). -/
inductive PyVal where
  | pystr (s : Str)
  | nonstr
deriving DecidableEq

/-- Result of Python float(...): a finite value represented exactly as
mantissa times ten to the exponent, or an infinity, or nan. -/
inductive PyF where
  | fin (m : Int) (e : Int)
  | inf
  | ninf
  | nan
deriving DecidableEq

/-- Python float comparison a < b: nan compares false with everything; the
finite comparison multiplies both sides up to a common power of ten so it is
an exact integer comparison. -/
def pyFloatLt (a b : PyF) : Bool :=
  match a, b with
  | .nan, _ => false
  | _, .nan => false
  | .ninf, .ninf => false
  | .ninf, _ => true
  | _, .ninf => false
  | .inf, _ => false
  | _, .inf => true
  | .fin m1 e1, .fin m2 e2 =>
    decide (m1 * 10 ^ (e1 - min e1 e2).toNat < m2 * 10 ^ (e2 - min e1 e2).toNat)

/-- Digit run to number. -/
def digitsToNat (ds : Str) : Nat := ds.foldl (fun n c => n * 10 + (c.toNat - '0'.toNat)) 0

/-- A non-empty all-digit run, as required after an exponent marker. -/
def parseUIntDigits (s : Str) : Option Nat :=
  if s ≠ [] ∧ s.all Char.isDigit then some (digitsToNat s) else none

/-- Parse the mantissa part of a float literal: digits with at most one dot
and at least one digit overall.  Returns the mantissa as an integer together
with the power-of-ten shift contributed by the fractional digits. -/
def parseMantissa (s : Str) : Option (Int × Int) :=
  let ip := s.takeWhile Char.isDigit
  match s.drop ip.length with
  | [] => if ip ≠ [] then some ((digitsToNat ip : Int), 0) else none
  | '.' :: fp =>
    if fp.all Char.isDigit ∧ (ip ≠ [] ∨ fp ≠ []) then
      some ((digitsToNat (ip ++ fp) : Int), -(fp.length : Int))
    else none
  | _ => none

/-- Parse an exponent: optional sign then a non-empty digit run. -/
def parseExp (s : Str) : Option Int :=
  match s with
  | '+' :: r => (parseUIntDigits r).map (fun n => (n : Int))
  | '-' :: r => (parseUIntDigits r).map (fun n => -(n : Int))
  | r => (parseUIntDigits r).map (fun n => (n : Int))

/-- Split at the first character satisfying a predicate. -/
def splitOnceBy (p : Char → Bool) : Str → Option (Str × Str)
  | [] => none
  | c :: cs =>
    if p c then some ([], cs)
    else (splitOnceBy p cs).map (fun q => (c :: q.1, q.2))

/-- Python float(...) on an already-stripped string: optional sign, then a
case-insensitive infinity or nan word, or a decimal literal with an optional
exponent.  None models the ValueError path.  (PEP 515 digit-group
underscores are not modelled; none occur in scraped ratio data.) -/
def pyFloatOfStr (s : Str) : Option PyF :=
  let sgn : Bool × Str :=
    match s with
    | '+' :: r => (false, r)
    | '-' :: r => (true, r)
    | r => (false, r)
  let tl := lowerStr sgn.2
  if tl = str ("inf") ∨ tl = str ("infinity") then
    some (if sgn.1 then PyF.ninf else PyF.inf)
  else if tl = str ("nan") then some PyF.nan
  else
    match splitOnceBy (fun c => c == 'e' || c == 'E') sgn.2 with
    | none =>
      (parseMantissa sgn.2).map (fun p => PyF.fin (if sgn.1 then -p.1 else p.1) p.2)
    | some q =>
      match parseMantissa q.1, parseExp q.2 with
      | some p, some e => some (PyF.fin (if sgn.1 then -p.1 else p.1) (p.2 + e))
      | _, _ => none

/-- The separator selection and split of data_utils.py lines 55-58: a colon
anywhere splits on colons, else a slash splits on slashes, else a
case-insensitive -for- splits the lowercased string on -for-, else there is
no applicable separator. -/
def ratioSepSplit (s : Str) : Option (List Str) :=
  if ':' ∈ s then some (splitCh ':' s)
  else if '/' ∈ s then some (splitCh '/' s)
  else if containsSub (str ("-for-")) (lowerStr s) then
    some (splitSub (str ("-for-")) (lowerStr s))
  else none

/-- is_reverse_split (data_utils.py lines 49-64): false for non-strings and
the empty string; otherwise strip, pick the separator, require exactly two
parts, parse both as floats (any failure gives false via the except clause),
and compare. -/
def is_reverse_split (v : PyVal) : Bool :=
  match v with
  | .nonstr => false
  | .pystr s0 =>
    if s0 = [] then false
    else
      match ratioSepSplit (pyStrip s0) with
      | none => false
      | some parts =>
        match parts with
        | [p1, p2] =>
          match pyFloatOfStr (pyStrip p1), pyFloatOfStr (pyStrip p2) with
          | some a, some b => pyFloatLt a b
          | _, _ => false
        | _ => false

/-- The behaviour is_reverse_split is claimed to have, stated as the claim
states it: the input is a string, non-empty, whose stripped form splits on
the first applicable separator into exactly two parts, both parts parse as
numbers, and the first is strictly less than the second. -/
def reverseSplitSpec (v : PyVal) : Prop :=
  ∃ s p1 p2 a b,
    v = PyVal.pystr s ∧ s ≠ [] ∧
    ratioSepSplit (pyStrip s) = some [p1, p2] ∧
    pyFloatOfStr (pyStrip p1) = some a ∧
    pyFloatOfStr (pyStrip p2) = some b ∧
    pyFloatLt a b = true

/-! ## Dictionary lemmas -/

theorem dictGet_dictSet (m : AIMap) (k : Str) (v : AIResult) (t : Str) :
    dictGet (dictSet m k v) t = if k = t then some v else dictGet m t := by
  induction m with
  | nil => simp [dictSet, dictGet]
  | cons hd tl ih =>
    obtain ⟨k2, v2⟩ := hd
    by_cases h1 : k2 = k
    · subst h1
      by_cases h2 : k2 = t <;> simp [dictSet, dictGet, h2]
    · by_cases h2 : k2 = t
      · subst h2
        have hkt : ¬ k = k2 := fun h => h1 h.symm
        simp [dictSet, dictGet, h1, hkt]
      · simp [dictSet, dictGet, h1, h2, ih]

theorem dictGet_foldl_dictSet (ts : List Str) (m : AIMap) (v : AIResult) (t : Str) :
    dictGet (ts.foldl (fun m2 t2 => dictSet m2 t2 v) m) t
      = if t ∈ ts then some v else dictGet m t := by
  induction ts generalizing m with
  | nil => simp
  | cons hd tl ih =>
    simp only [List.foldl_cons, ih, dictGet_dictSet, List.mem_cons]
    by_cases h1 : t ∈ tl
    · simp [h1]
    · by_cases h2 : hd = t
      · simp [h1, h2]
      · have h3 : ¬ t = hd := fun h => h2 h.symm
        simp [h1, h2, h3]

theorem dictGet_dictInit (ts : List Str) (v : AIResult) (t : Str) :
    dictGet (dictInit ts v) t = if t ∈ ts then some v else none := by
  simp [dictInit, dictGet_foldl_dictSet, dictGet]

theorem lineTicker_mem (ts : List Str) (line : Str) (p : Str × Str)
    (h : lineTicker ts line = some p) : p.1 ∈ ts := by
  unfold lineTicker at h
  split at h
  · exact absurd h (by simp)
  · split at h
    · exact absurd h (by simp)
    · rename_i q _
      split at h
      · rename_i hmem
        obtain rfl : (pyStrip q.1, pyStrip q.2) = p := by injection h
        exact hmem
      · exact absurd h (by simp)

theorem lineStep_haskey (ts : List Str) (line : Str) (m : AIMap)
    (hm : ∀ t, (dictGet m t).isSome = true ↔ t ∈ ts) :
    ∀ t, (dictGet (lineStep ts m line) t).isSome = true ↔ t ∈ ts := by
  intro t
  unfold lineStep
  cases hlt : lineTicker ts line with
  | none => exact hm t
  | some p =>
    rw [dictGet_dictSet]
    by_cases h : p.1 = t
    · subst h; simp [lineTicker_mem ts line p hlt]
    · simp [h, hm t]

theorem foldl_lineStep_haskey (ts : List Str) (ls : List Str) (m : AIMap)
    (hm : ∀ t, (dictGet m t).isSome = true ↔ t ∈ ts) :
    ∀ t, (dictGet (ls.foldl (lineStep ts) m) t).isSome = true ↔ t ∈ ts := by
  induction ls generalizing m with
  | nil => exact hm
  | cons hd tl ih => exact ih _ (lineStep_haskey ts hd m hm)

theorem lineStep_untouched (ts : List Str) (line : Str) (m : AIMap) (t : Str)
    (h : (lineTicker ts line).map Prod.fst ≠ some t) :
    dictGet (lineStep ts m line) t = dictGet m t := by
  unfold lineStep
  cases hlt : lineTicker ts line with
  | none => rfl
  | some p =>
    rw [dictGet_dictSet]
    have ha : p.1 ≠ t := by
      intro he
      exact h (by rw [hlt]; simp [he])
    simp [ha]

theorem foldl_lineStep_untouched (ts : List Str) (ls : List Str) (m : AIMap) (t : Str)
    (h : ∀ line ∈ ls, (lineTicker ts line).map Prod.fst ≠ some t) :
    dictGet (ls.foldl (lineStep ts) m) t = dictGet m t := by
  induction ls generalizing m with
  | nil => rfl
  | cons hd tl ih =>
    rw [List.foldl_cons, ih _ (fun l hl => h l (List.mem_cons_of_mem _ hl)),
        lineStep_untouched ts hd m t (h hd (List.mem_cons_self _ _))]

/-- Claim C1: for every non-empty list of requested tickers and every raw
response string, the batch-classification parse produces a mapping whose key
set is exactly the requested tickers, and any requested ticker never matched
by a response line maps to the missing-response sentinel verdict. -/
theorem parse_totality (raw : Str) (ts : List Str) (_hne : ts ≠ []) :
    (∀ t, (dictGet (parseBatchResponse raw ts) t).isSome = true ↔ t ∈ ts) ∧
    (∀ t ∈ ts,
      (∀ line ∈ splitlines raw, (lineTicker ts line).map Prod.fst ≠ some t) →
      dictGet (parseBatchResponse raw ts) t = some ⟨RESP_MISSING, []⟩) := by
  constructor
  · intro t
    exact foldl_lineStep_haskey ts (splitlines raw) _
      (fun t2 => by rw [dictGet_dictInit]; by_cases h : t2 ∈ ts <;> simp [h]) t
  · intro t ht hnone
    unfold parseBatchResponse
    rw [foldl_lineStep_untouched ts (splitlines raw) _ t hnone, dictGet_dictInit]
    simp [ht]

/-- Witness for C1 at a concrete garbage response. -/
theorem parse_totality_witness :
    dictGet (parseBatchResponse (str ("garbage with no colons")) [str ("AAA")]) (str ("AAA"))
      = some ⟨RESP_MISSING, []⟩ :=
  (parse_totality (str ("garbage with no colons")) [str ("AAA")] (by decide)).2
    (str ("AAA")) (by decide) (by decide)

/-- Claim C2, counterexample to the claim as stated: with two parseable lines
for AAA, the parse result is the verdict of the second (last) line, not the
first: first-match-wins does not hold. -/
theorem parse_duplicate_first_wins_cex :
    dictGet (parseBatchResponse
        (str ("AAA: Rounding Up Likely\nAAA: Cash-in-Lieu Likely")) [str ("AAA")])
        (str ("AAA"))
      = some ⟨OUTPUT_CASH, REASONING_PLACEHOLDER⟩
    ∧ OUTPUT_CASH ≠ OUTPUT_ROUND_UP := ⟨by decide, by decide⟩

/-- Claim C2 as amended: the last resolving line for a ticker determines its
parse result — later duplicate lines overwrite earlier ones.  The ticker's
last line may sit anywhere in the response: earlier lines (for it or for
other tickers) are overwritten or irrelevant, and the lines after it may be
anything that does not resolve this ticker, in particular lines for other
tickers. -/
theorem parse_duplicate_last_wins (raw : Str) (ts : List Str) (ls1 ls2 : List Str)
    (line : Str) (t rest : Str)
    (hsplit : splitlines raw = ls1 ++ line :: ls2)
    (h : lineTicker ts line = some (t, rest))
    (hafter : ∀ l2 ∈ ls2, (lineTicker ts l2).map Prod.fst ≠ some t) :
    dictGet (parseBatchResponse raw ts) t = some (classifyRest rest) := by
  unfold parseBatchResponse
  rw [hsplit, List.foldl_append, List.foldl_cons,
      foldl_lineStep_untouched ts ls2 _ t hafter]
  unfold lineStep
  rw [h, dictGet_dictSet]
  simp

/-- Witness for the amended C2 at a concrete response where the duplicate
ticker's last line is followed by a line for a different ticker. -/
theorem parse_duplicate_last_wins_witness :
    dictGet (parseBatchResponse
        (str ("AAA: Rounding Up Likely\nAAA: Cash-in-Lieu Likely\nBBB: Unable to Determine"))
        [str ("AAA"), str ("BBB")]) (str ("AAA"))
      = some (classifyRest (str ("Cash-in-Lieu Likely"))) :=
  parse_duplicate_last_wins
    (str ("AAA: Rounding Up Likely\nAAA: Cash-in-Lieu Likely\nBBB: Unable to Determine"))
    [str ("AAA"), str ("BBB")]
    [str ("AAA: Rounding Up Likely")] [str ("BBB: Unable to Determine")]
    (str ("AAA: Cash-in-Lieu Likely"))
    (str ("AAA")) (str ("Cash-in-Lieu Likely")) (by decide) (by decide) (by decide)

/-- Claim C3, counterexample to the claim as stated: the parser has no
decorative-numbering stripping, so the line with prefix leaves AAA at the
missing sentinel rather than the cash-in-lieu verdict. -/
theorem numbered_prefix_cex :
    (dictGet (parseBatchResponse (str ("1. AAA: Cash-in-Lieu Likely")) [str ("AAA")])
        (str ("AAA"))).map AIResult.result = some RESP_MISSING
    ∧ RESP_MISSING ≠ OUTPUT_CASH := ⟨by decide, by decide⟩

/-- Claim C3 as amended: a decorative enumeration prefix is NOT stripped; the
colon-split head of such a line retains the prefix, is not a requested
ticker, so the line is skipped entirely (any line the admission check
rejects leaves the map unchanged), and the prefixed example leaves AAA at the
missing-response sentinel. -/
theorem numbered_prefix_not_stripped :
    (∀ ts m line, lineTicker ts line = none → lineStep ts m line = m) ∧
    dictGet (parseBatchResponse (str ("1. AAA: Cash-in-Lieu Likely")) [str ("AAA")])
        (str ("AAA"))
      = some ⟨RESP_MISSING, []⟩ := by
  refine ⟨fun ts m line h => ?_, by decide⟩
  unfold lineStep
  rw [h]

/-- Witness for the amended C3 at the concrete prefixed line. -/
theorem numbered_prefix_not_stripped_witness :
    lineStep [str ("AAA")] [] (str ("1. AAA: Cash-in-Lieu Likely")) = [] :=
  (numbered_prefix_not_stripped).1 [str ("AAA")] [] (str ("1. AAA: Cash-in-Lieu Likely"))
    (by decide)

/-- Claim C4, counterexample to the claim as stated: a remainder differing
from an allowed phrase only in letter case resolves to the unclear sentinel,
not to the phrase. -/
theorem phrase_case_cex :
    (dictGet (parseBatchResponse (str ("AAA: cash-in-lieu likely")) [str ("AAA")])
        (str ("AAA"))).map AIResult.result = some RESP_UNCLEAR
    ∧ RESP_UNCLEAR ∉ CLASSIFICATION_PHRASES := ⟨by decide, by decide⟩

/-- Claim C4 as amended: phrase matching is case-sensitive and exact, with no
whitespace normalization: a remainder that no allowed phrase starts or occurs
in (even one differing from a phrase only in case) yields the unclear
sentinel with the remainder kept verbatim as reasoning. -/
theorem phrase_match_case_sensitive :
    (∀ rest, (∀ p ∈ CLASSIFICATION_PHRASES,
        p.isPrefixOf rest = false ∧ containsSub p rest = false) →
      classifyRest rest = ⟨RESP_UNCLEAR, rest⟩) ∧
    dictGet (parseBatchResponse (str ("AAA: cash-in-lieu likely")) [str ("AAA")])
        (str ("AAA"))
      = some ⟨RESP_UNCLEAR, str ("cash-in-lieu likely")⟩ := by
  refine ⟨fun rest h => ?_, by decide⟩
  unfold classifyRest
  rw [List.find?_eq_none.2 (fun p hp => by simp [(h p hp).1]),
      List.find?_eq_none.2 (fun p hp => by simp [(h p hp).2])]

/-- Witness for the amended C4 at a concrete unrecognized remainder. -/
theorem phrase_match_case_sensitive_witness :
    classifyRest (str ("Maybe Both")) = ⟨RESP_UNCLEAR, str ("Maybe Both")⟩ :=
  (phrase_match_case_sensitive).1 (str ("Maybe Both")) (by decide)

/-- Claim C5: when the single network call raises, the batch classification
returns (totally, no exception propagates in the model) a mapping giving
every requested ticker the api-error sentinel, and the call was attempted. -/
theorem api_error_map (l : List SplitInfo) (h : l ≠ []) :
    (get_batch_ai_validation true l none).2 = true ∧
    ∀ t ∈ tickersSent l,
      dictGet (get_batch_ai_validation true l none).1 t = some ⟨RESP_API_ERROR, []⟩ := by
  have he : get_batch_ai_validation true l none
      = (dictInit (tickersSent l) ⟨RESP_API_ERROR, []⟩, true) := by
    unfold get_batch_ai_validation
    rw [if_neg (by decide), if_neg h]
  rw [he]
  exact ⟨rfl, fun t ht => by rw [dictGet_dictInit]; simp [ht]⟩

/-- Witness for C5 at a concrete one-element batch. -/
theorem api_error_map_witness :
    dictGet (get_batch_ai_validation true
        [⟨str ("AAA"), str ("1:10"), str ("2025-06-01")⟩] none).1 (str ("AAA"))
      = some ⟨RESP_API_ERROR, []⟩ :=
  (api_error_map [⟨str ("AAA"), str ("1:10"), str ("2025-06-01")⟩] (by decide)).2
    (str ("AAA")) (by decide)

/-- Claim C6: with the service unconfigured the client short-circuits with no
call attempted, the merge stage gives every pending candidate the distinct
disabled sentinel, and that sentinel is conflated neither with the api-error
string nor with any genuine per-ticker AI result. -/
theorem ai_disabled_sentinel (l : List SplitInfo) (resp : Option Str) (m : AIMap)
    (records : List SplitRec) :
    get_batch_ai_validation false l resp = ([], false) ∧
    (∀ r ∈ records, r.handling = PENDING_AI →
      (mergeRecord false m r).handling = Handling.plain AI_DISABLED) ∧
    AI_DISABLED ≠ RESP_API_ERROR ∧
    (∀ v : AIResult, Handling.plain AI_DISABLED ≠ Handling.aiRes v) := by
  refine ⟨?_, ?_, by decide, fun v h => Handling.noConfusion h⟩
  · unfold get_batch_ai_validation
    rw [if_pos rfl]
  · intro r hr hp
    simp [mergeRecord, hp]

/-- Witness for C6 at a concrete pending record. -/
theorem ai_disabled_sentinel_witness :
    (mergeRecord false [] ⟨str ("AAA"), [], [], str ("2025-06-01"), [], PENDING_AI⟩).handling
      = Handling.plain AI_DISABLED :=
  ((ai_disabled_sentinel [] none []
      [⟨str ("AAA"), [], [], str ("2025-06-01"), [], PENDING_AI⟩]).2).1
    ⟨str ("AAA"), [], [], str ("2025-06-01"), [], PENDING_AI⟩ (by decide) (by decide)

/-! ## C7 support: phrase prefix matching -/

theorem not_prefixOf_head_ne (a b : Char) (as bs : Str) (h : (a == b) = false) :
    (a :: as).isPrefixOf (b :: bs) = false := by
  simp only [List.isPrefixOf, h, Bool.false_and]

theorem find?_prefix_phrase (p : Str) (hp : p ∈ CLASSIFICATION_PHRASES) (s : Str) :
    CLASSIFICATION_PHRASES.find? (fun q => q.isPrefixOf (p ++ s)) = some p := by
  have hRU : OUTPUT_ROUND_UP = 'R' :: (str ("ounding Up Likely")) := by decide
  have hC : OUTPUT_CASH = 'C' :: (str ("ash-in-Lieu Likely")) := by decide
  have hU : OUTPUT_UNKNOWN = 'U' :: (str ("nable to Determine")) := by decide
  have self_pref : ∀ q : Str, q.isPrefixOf (q ++ s) = true := fun q =>
    List.isPrefixOf_iff_prefix.2 (List.prefix_append q s)
  have hp2 : p = OUTPUT_ROUND_UP ∨ p = OUTPUT_CASH ∨ p = OUTPUT_UNKNOWN := by
    simpa [CLASSIFICATION_PHRASES] using hp
  unfold CLASSIFICATION_PHRASES
  rcases hp2 with rfl | rfl | rfl
  · exact List.find?_cons_of_pos _ (self_pref OUTPUT_ROUND_UP)
  · rw [List.find?_cons_of_neg]
    · exact List.find?_cons_of_pos _ (self_pref OUTPUT_CASH)
    · rw [hC, List.cons_append, hRU]
      simp [not_prefixOf_head_ne]
  · rw [List.find?_cons_of_neg]
    · rw [List.find?_cons_of_neg]
      · exact List.find?_cons_of_pos _ (self_pref OUTPUT_UNKNOWN)
      · rw [hU, List.cons_append, hC]
        simp [not_prefixOf_head_ne]
    · rw [hU, List.cons_append, hRU]
      simp [not_prefixOf_head_ne]

/-- Claim C7: for a response-line remainder that starts with an allowed
classification phrase, the reasoning is the text after the phrase with
exactly one leading separator stripped in the fixed priority order: the
literal 12-character pipe-Reasoning separator first, then a bare pipe, then
the 10-character Reasoning separator, then a dash; if none matches the
remaining non-empty (whitespace-stripped) text is kept, and if nothing
remains the not-distinctly-provided placeholder is used. -/
theorem reasoning_separator_priority (p : Str) (hp : p ∈ CLASSIFICATION_PHRASES) (s : Str) :
    classifyRest (p ++ s) =
      ⟨p,
        if SEP_PIPE_REASONING.isPrefixOf (pyStrip s) then pyStrip ((pyStrip s).drop 12)
        else if (str ("|")).isPrefixOf (pyStrip s) then pyStrip ((pyStrip s).drop 1)
        else if SEP_REASONING.isPrefixOf (pyStrip s) then pyStrip ((pyStrip s).drop 10)
        else if (str ("-")).isPrefixOf (pyStrip s) then pyStrip ((pyStrip s).drop 1)
        else if pyStrip s ≠ [] then pyStrip s
        else REASONING_PLACEHOLDER⟩ := by
  have h12 : SEP_PIPE_REASONING.length = 12 := by decide
  have h10 : SEP_REASONING.length = 10 := by decide
  unfold classifyRest
  rw [find?_prefix_phrase p hp s]
  have hd : (p ++ s).drop p.length = s := List.drop_left p s
  simp only [hd]
  unfold stripReasoningSep
  rw [h12, h10]

/-- Witness for C7 at a concrete phrase and reasoning tail. -/
theorem reasoning_separator_priority_witness :
    classifyRest (OUTPUT_CASH ++ (str (" | Reasoning: default cash handling"))) =
      ⟨OUTPUT_CASH, str ("default cash handling")⟩ := by
  rw [reasoning_separator_priority OUTPUT_CASH (by decide)
      (str (" | Reasoning: default cash handling"))]
  decide

/-! ## C8 support: notification loop lemmas -/

theorem notifLoop_sublist (history : List Str) (sendOk : SplitRec → Bool)
    (records : List SplitRec) :
    List.Sublist (notifLoop history sendOk records).1 records := by
  induction records with
  | nil => simp [notifLoop]
  | cons r rs ih =>
    rw [notifLoop]
    by_cases h : notifKey r ∈ history
    · rw [if_pos h]
      exact ih.cons r
    · rw [if_neg h]
      exact ih.cons₂ r

theorem notifLoop_attempts_not_history (history : List Str) (sendOk : SplitRec → Bool)
    (records : List SplitRec) :
    ∀ r ∈ (notifLoop history sendOk records).1, notifKey r ∉ history := by
  induction records with
  | nil => intro r hr; simp [notifLoop] at hr
  | cons a rs ih =>
    intro r hr
    rw [notifLoop] at hr
    by_cases h : notifKey a ∈ history
    · rw [if_pos h] at hr
      exact ih r hr
    · rw [if_neg h] at hr
      rcases List.mem_cons.1 hr with heq | hr2
      · rw [heq]; exact h
      · exact ih r hr2

theorem notifLoop_keys_from_success (history : List Str) (sendOk : SplitRec → Bool)
    (records : List SplitRec) :
    ∀ k ∈ (notifLoop history sendOk records).2,
      ∃ r ∈ (notifLoop history sendOk records).1, sendOk r = true ∧ notifKey r = k := by
  induction records with
  | nil => intro k hk; simp [notifLoop] at hk
  | cons a rs ih =>
    intro k hk
    rw [notifLoop] at hk ⊢
    by_cases h : notifKey a ∈ history
    · rw [if_pos h] at hk ⊢
      exact ih k hk
    · rw [if_neg h] at hk ⊢
      by_cases hs : sendOk a = true
      · rw [if_pos hs] at hk
        rcases List.mem_cons.1 hk with heq | hk2
        · exact ⟨a, List.mem_cons_self a _, hs, heq.symm⟩
        · obtain ⟨r, hr, hok, hkey⟩ := ih k hk2
          exact ⟨r, List.mem_cons_of_mem a hr, hok, hkey⟩
      · rw [if_neg hs] at hk
        obtain ⟨r, hr, hok, hkey⟩ := ih k hk
        exact ⟨r, List.mem_cons_of_mem a hr, hok, hkey⟩

/-- Claim C8: the notification loop attempts at most one send per record per
run (the attempted records form a sublist of the run's records), never
attempts a record whose key is in the history loaded at the start of the
run, and a key enters the persisted history only when it was already there or
its send attempt succeeded. -/
theorem notification_gating (history : List Str) (sendOk : SplitRec → Bool)
    (records : List SplitRec) :
    List.Sublist (notifLoop history sendOk records).1 records ∧
    (∀ r ∈ (notifLoop history sendOk records).1, notifKey r ∉ history) ∧
    (∀ k ∈ finalNotifiedKeys history sendOk records,
      k ∈ history ∨
        ∃ r ∈ (notifLoop history sendOk records).1, sendOk r = true ∧ notifKey r = k) := by
  refine ⟨notifLoop_sublist history sendOk records,
    notifLoop_attempts_not_history history sendOk records, fun k hk => ?_⟩
  rcases List.mem_append.1 hk with h | h
  · exact Or.inl h
  · exact Or.inr (notifLoop_keys_from_success history sendOk records k h)

/-- Witness for C8: a concrete two-record run where the first record's key is
already in the loaded history. -/
theorem notification_gating_witness :
    notifKey (⟨str ("B"), [], [], str ("2"), [], PENDING_AI⟩ : SplitRec)
      ∉ [str ("A_1")] :=
  (notification_gating [str ("A_1")] (fun _ => true)
      [⟨str ("A"), [], [], str ("1"), [], PENDING_AI⟩,
       ⟨str ("B"), [], [], str ("2"), [], PENDING_AI⟩]).2.1
    ⟨str ("B"), [], [], str ("2"), [], PENDING_AI⟩ (by decide)

/-! ## C10 support: history file round-trip -/

theorem mem_insKey (x a : Str) (l : List Str) : a ∈ insKey x l ↔ a = x ∨ a ∈ l := by
  induction l with
  | nil => simp [insKey]
  | cons y ys ih =>
    rw [insKey]
    by_cases h : strLe x y
    · rw [if_pos h]
      simp [List.mem_cons]
    · rw [if_neg h]
      simp only [List.mem_cons, ih]
      tauto

theorem mem_sortKeys (a : Str) (l : List Str) : a ∈ sortKeys l ↔ a ∈ l := by
  induction l with
  | nil => simp [sortKeys]
  | cons x xs ih =>
    rw [sortKeys, mem_insKey]
    simp [ih]

theorem splitCh_newline_append (k t : Str) (hk : '\n' ∉ k) :
    splitCh '\n' (k ++ '\n' :: t) = k :: splitCh '\n' t := by
  induction k with
  | nil => simp [splitCh]
  | cons c cs ih =>
    have hc : ¬ c = '\n' := fun h => hk (h ▸ List.mem_cons_self c cs)
    have hk2 : '\n' ∉ cs := fun h => hk (List.mem_cons_of_mem c h)
    rw [List.cons_append, splitCh, if_neg hc, ih hk2]

theorem load_of_lines (l : List Str)
    (h : ∀ k ∈ l, k ≠ [] ∧ '\n' ∉ k ∧ pyStrip k = k) :
    load_notified_history ((l.map (fun k => k ++ ['\n'])).flatten) = l := by
  induction l with
  | nil => rfl
  | cons k ks ih =>
    obtain ⟨hne, hnl, hstrip⟩ := h k (List.mem_cons_self k ks)
    have ih2 := ih (fun a ha => h a (List.mem_cons_of_mem k ha))
    have hfl : ((k :: ks).map (fun k2 => k2 ++ ['\n'])).flatten
        = k ++ '\n' :: (ks.map (fun k2 => k2 ++ ['\n'])).flatten := by
      simp [List.append_assoc]
    rw [hfl]
    unfold load_notified_history
    rw [splitCh_newline_append k _ hnl, List.map_cons, hstrip,
        List.filter_cons_of_pos (by simp [hne])]
    exact congrArg (fun r => k :: r) ih2

/-- Claim C10: saving a notification-history set and loading it back is a
round-trip: for keys that are non-empty, contain no newline, and have no
leading or trailing whitespace, the loaded set has exactly the saved keys. -/
theorem history_roundtrip (keys : List Str)
    (h : ∀ k ∈ keys, k ≠ [] ∧ '\n' ∉ k ∧ pyStrip k = k) :
    ∀ k, k ∈ load_notified_history (save_notified_history keys) ↔ k ∈ keys := by
  intro k
  unfold save_notified_history
  rw [load_of_lines (sortKeys keys) (fun a ha => h a ((mem_sortKeys a keys).1 ha))]
  exact mem_sortKeys k keys

/-- Witness for C10 at a concrete two-key history. -/
theorem history_roundtrip_witness :
    str ("AAPL_2025-01-02") ∈ load_notified_history
        (save_notified_history [str ("TSLA_2025-03-04"), str ("AAPL_2025-01-02")]) :=
  (history_roundtrip [str ("TSLA_2025-03-04"), str ("AAPL_2025-01-02")] (by decide)
      (str ("AAPL_2025-01-02"))).2 (by decide)

/-- Claim C9: is_reverse_split is a total boolean function (no exception
path exists in the model) and returns true exactly when the input is a
non-empty string whose stripped form splits on the first applicable
separator (colon, else slash, else case-insensitive -for-) into exactly two
parts that both parse as numbers with the first strictly less than the
second; every other input yields false. -/
theorem is_reverse_split_characterization (v : PyVal) :
    is_reverse_split v = true ↔ reverseSplitSpec v := by
  constructor
  · intro h
    cases v with
    | nonstr => exact absurd h (by simp [is_reverse_split])
    | pystr s =>
      simp only [is_reverse_split] at h
      by_cases h0 : s = []
      · rw [if_pos h0] at h
        exact absurd h (by simp)
      · rw [if_neg h0] at h
        cases hsp : ratioSepSplit (pyStrip s) with
        | none =>
          rw [hsp] at h
          exact absurd h (by simp)
        | some parts =>
          rw [hsp] at h
          match parts, h with
          | [p1, p2], h => ?_
          dsimp only at h
          cases hf1 : pyFloatOfStr (pyStrip p1) with
            | none =>
              rw [hf1] at h
              cases pyFloatOfStr (pyStrip p2) <;> exact absurd h (by simp)
            | some a =>
              cases hf2 : pyFloatOfStr (pyStrip p2) with
              | none =>
                rw [hf1, hf2] at h
                exact absurd h (by simp)
              | some b =>
                rw [hf1, hf2] at h
                exact ⟨s, p1, p2, a, b, rfl, h0, hsp, hf1, hf2, h⟩
  · intro hspec
    obtain ⟨s, p1, p2, a, b, rfl, hne, hsp, hf1, hf2, hlt⟩ := hspec
    simp only [is_reverse_split]
    rw [if_neg hne, hsp]
    simp only [hf1, hf2]
    exact hlt
